import Mathlib

/-!
# Verification of the AI-Research-Agent retrieval core and UI handlers

The repository ships a React frontend (paper upload, comparison selection,
library chat, citation querying) on top of a retrieval-and-grounding core
(chunking, embedding index, retrieval planner, APIs).  The frontend handlers
are embedded directly from the JSX source; the retrieval core, whose backend
sources are not part of the checked-in tree, is modelled from the
specification's contracts (marked `Modelled from the spec:` below).
-/

namespace AIResearchAgent

/-! ## Data model -/

/-- Modelled from the spec: a Citation is a marker occurrence with its literal
text, its type (numeric, author-year, footnote), its captured surrounding
context, and a weak (optional) link to a Reference entry. -/
structure Citation where
  text : String
  type : String
  context : String
  refIndex : Option Nat
deriving DecidableEq, Repr

/-- Modelled from the spec: a Passage belongs to exactly one Paper, has a
stable `(paper_id, start_offset, end_offset)` identity, a text span, and zero
or more Citation references found within it. -/
structure Passage where
  paper_id : Nat
  start_offset : Nat
  end_offset : Nat
  text : String
  citations : List Citation
deriving DecidableEq, Repr

/-- Modelled from the spec: an IndexEntry is a (Passage, embedding vector)
pair stored in the EmbeddingIndex.  Vectors are rational-valued. -/
structure IndexEntry where
  passage : Passage
  vector : List ℚ
deriving DecidableEq, Repr

/-- Modelled from the spec: the EmbeddingIndex owns the stored IndexEntries
together with the embedding-model version that produced the stored vectors and
the fixed vector dimension `D` of that model. -/
structure EmbeddingIndex where
  entries : List IndexEntry
  modelVersion : String
  dim : Nat
deriving DecidableEq, Repr

/-- Modelled from the spec: a query vector is tagged with the embedding-model
version that produced it, so the index can refuse to mix versions. -/
structure QueryVector where
  vec : List ℚ
  modelVersion : String
deriving DecidableEq, Repr

/-- Modelled from the spec: `ConsistencyError` (embedding-version mismatch,
dimension mismatch) is always fatal to the operation, never silently
coerced.  `dimensionMismatch` is the spec's `DimensionMismatchError`. -/
inductive ConsistencyError where
  | versionMismatch
  | dimensionMismatch
deriving DecidableEq, Repr

/-! ## EmbeddingIndex.search -/

/-- Ranking order on scored entries: strictly higher similarity first, ties
broken by lower `(paper_id, passage start_offset)` for determinism. -/
def rankBefore (a b : IndexEntry × ℚ) : Prop :=
  b.2 < a.2 ∨ (a.2 = b.2 ∧ (a.1.passage.paper_id < b.1.passage.paper_id ∨
    (a.1.passage.paper_id = b.1.passage.paper_id ∧
      a.1.passage.start_offset ≤ b.1.passage.start_offset)))

instance : DecidableRel rankBefore := fun a b => by
  unfold rankBefore; infer_instance

/-- Scope restriction: with an explicit scope only entries of papers in the
scope pass; without one every entry passes. -/
def scopeFilter (scope : Option (List Nat)) (e : IndexEntry) : Bool :=
  match scope with
  | none => true
  | some sids => decide (e.passage.paper_id ∈ sids)

/-- The in-scope entries of the index, each paired with its similarity to the
query vector. -/
def scoredEntries (idx : EmbeddingIndex) (sim : List ℚ → List ℚ → ℚ)
    (q : QueryVector) (scope : Option (List Nat)) : List (IndexEntry × ℚ) :=
  (idx.entries.filter (scopeFilter scope)).map fun e => (e, sim q.vec e.vector)

/-- Modelled from the spec: `search(query_vector, scope, k)` returns up to `k`
entries ordered by descending similarity, restricted to `scope` when provided
(`none` means the whole index).  A version mismatch between the query vector
and the index, or a dimensionality mismatch, is a hard `ConsistencyError`.
The similarity metric `sim` is the opaque capability interface of the
embedding service (cosine or an equivalent normalized distance). -/
def EmbeddingIndex.search (idx : EmbeddingIndex) (sim : List ℚ → List ℚ → ℚ)
    (q : QueryVector) (scope : Option (List Nat)) (k : Nat) :
    Except ConsistencyError (List (IndexEntry × ℚ)) :=
  if q.modelVersion ≠ idx.modelVersion then
    .error .versionMismatch
  else if q.vec.length ≠ idx.dim then
    .error .dimensionMismatch
  else
    .ok (((scoredEntries idx sim q scope).insertionSort rankBefore).take k)

/-! ## RetrievalPlanner -/

/-- Two passages overlap when they belong to the same paper and their offset
ranges intersect. -/
def overlaps (p q : Passage) : Bool :=
  decide (p.paper_id = q.paper_id ∧ p.start_offset < q.end_offset ∧
    q.start_offset < p.end_offset)

/-- Worker for overlap deduplication: walk the (descending-ranked) candidate
list, keeping an entry only when it overlaps none of the already-kept ones, so
of each overlapping same-paper group only the highest-scoring entry stays. -/
def dedupKeep (acc : List (IndexEntry × ℚ)) :
    List (IndexEntry × ℚ) → List (IndexEntry × ℚ)
  | [] => acc.reverse
  | x :: rest =>
    if acc.any (fun y => overlaps x.1.passage y.1.passage) then
      dedupKeep acc rest
    else
      dedupKeep (x :: acc) rest

/-- Modelled from the spec: deduplicate passages that overlap (same paper,
overlapping offset ranges) keeping only the highest-scoring one. -/
def dedupOverlaps (l : List (IndexEntry × ℚ)) : List (IndexEntry × ℚ) :=
  dedupKeep [] l

/-- Two scored entries whose passages do not overlap. -/
def NoOverlapPair (a b : IndexEntry × ℚ) : Prop :=
  overlaps a.1.passage b.1.passage = false

/-- Planner configuration: the configurable minimum-relevance floor. -/
structure PlannerConfig where
  minRelevance : ℚ
deriving DecidableEq, Repr

/-- Modelled from the spec: `plan(query_text, scope, k)` embeds the query,
calls `EmbeddingIndex.search`, deduplicates overlapping passages, and applies
the minimum-relevance floor; zero qualifying passages yield an empty result,
not an error. -/
def RetrievalPlanner.plan (idx : EmbeddingIndex) (sim : List ℚ → List ℚ → ℚ)
    (embedQuery : String → QueryVector) (cfg : PlannerConfig)
    (query : String) (scope : Option (List Nat)) (k : Nat) :
    Except ConsistencyError (List (IndexEntry × ℚ)) :=
  match idx.search sim (embedQuery query) scope k with
  | .error e => .error e
  | .ok results =>
    .ok ((dedupOverlaps results).filter fun r => decide (cfg.minRelevance ≤ r.2))

/-! ## Chunker -/

/-- Modelled from the spec: target passage size for the sliding window
(~800 characters). -/
def CHUNK_SIZE : Nat := 800

/-- Modelled from the spec: sliding-window overlap (~15% of the target). -/
def CHUNK_OVERLAP : Nat := 120

/-- Modelled from the spec: chunking fails with `EmptyInputError` on blank
text. -/
inductive ChunkError where
  | emptyInput
deriving DecidableEq, Repr

/-- A string is blank when it contains only whitespace characters. -/
def isBlank (s : String) : Bool :=
  s.toList.all fun c => c == ' ' || c == '\n' || c == '\t' || c == '\r'

/-- Split a character list into paragraphs at blank-line (`"\n\n"`) boundaries,
recording each paragraph's character offset in the original text.  `start` is
the offset of the current paragraph, `acc` its accumulated (reversed)
characters. -/
def splitParasAux : List Char → Nat → List Char → List (Nat × List Char)
  | [], start, acc => if acc.isEmpty then [] else [(start, acc.reverse)]
  | '\n' :: '\n' :: rest, start, acc =>
    (if acc.isEmpty then [] else [(start, acc.reverse)]) ++
      splitParasAux rest (start + acc.length + 2) []
  | c :: rest, start, acc => splitParasAux rest start (c :: acc)

/-- Sliding windows over a span of length `len` starting at text offset `off`:
one window when the span fits the target size, else fixed-size windows stepped
by `CHUNK_SIZE - CHUNK_OVERLAP`, the last one covering the trailing content.
`fuel` bounds the recursion (`len` suffices). -/
def slideWindows : Nat → Nat → Nat → List (Nat × Nat)
  | 0, _, _ => []
  | fuel + 1, off, len =>
    if len ≤ CHUNK_SIZE then [(off, off + len)]
    else (off, off + CHUNK_SIZE) ::
      slideWindows fuel (off + (CHUNK_SIZE - CHUNK_OVERLAP))
        (len - (CHUNK_SIZE - CHUNK_OVERLAP))

/-- The substring of `cs` between character offsets `s` (inclusive) and `e`
(exclusive). -/
def sliceChars (cs : List Char) (s e : Nat) : String :=
  String.mk ((cs.drop s).take (e - s))

/-- Modelled from the spec: `chunk(paper_text)` splits on paragraph boundaries
first, falls back to a fixed-size sliding window when a paragraph exceeds the
target size, preserves original character offsets, and fails with
`EmptyInputError` on blank text. -/
def chunk (pid : Nat) (text : String) : Except ChunkError (List Passage) :=
  if isBlank text then .error .emptyInput
  else
    let cs := text.toList
    let paras := splitParasAux cs 0 []
    .ok <| paras.flatMap fun pr =>
      (slideWindows pr.2.length pr.1 pr.2.length).map fun w =>
        { paper_id := pid, start_offset := w.1, end_offset := w.2,
          text := sliceChars cs w.1 w.2, citations := [] }

/-- The passage-boundary offset lists produced by one run of `chunk`. -/
def chunkOffsets (pid : Nat) (text : String) :
    Except ChunkError (List (Nat × Nat)) :=
  (chunk pid text).map (List.map fun p => (p.start_offset, p.end_offset))

/-! ## Bulk add to library -/

/-- A paper as the library sees it: identifier and title. -/
structure Paper where
  id : Nat
  title : String
deriving DecidableEq, Repr

/-- Modelled from the spec: `insert(paper_id, passages)` stores one IndexEntry
per passage; the per-paper embedding call is all-or-nothing, so a successful
insert appends all of the paper's entries. -/
def EmbeddingIndex.insertEntries (idx : EmbeddingIndex) (es : List IndexEntry) :
    EmbeddingIndex :=
  { idx with entries := idx.entries ++ es }

/-- Outcome of a bulk add: the updated index plus the per-paper report of
successes (`added_papers`, as in the frontend's response field) and named
failures. -/
structure BulkAddResult where
  index : EmbeddingIndex
  added_papers : List Nat
  failed_papers : List Nat
deriving DecidableEq, Repr

/-- Modelled from the spec: bulk "add many papers to library" is logically a
sequence of independent per-paper inserts; `embedPaper` is the external
embedding call for one paper's passages (`none` = `EmbeddingServiceError`,
leaving the index unchanged for that paper); partial failure is reported
per-paper, never as one atomic batch. -/
def bulkAdd (embedPaper : Paper → Option (List IndexEntry))
    (idx : EmbeddingIndex) : List Paper → BulkAddResult
  | [] => ⟨idx, [], []⟩
  | p :: rest =>
    match embedPaper p with
    | none =>
      let r := bulkAdd embedPaper idx rest
      ⟨r.index, r.added_papers, p.id :: r.failed_papers⟩
    | some es =>
      let r := bulkAdd embedPaper (idx.insertEntries es) rest
      ⟨r.index, p.id :: r.added_papers, r.failed_papers⟩

/-! ## Library query API (frontend `sendMessage` + spec contract) -/

/-- Request body of `/api/library/chat`. -/
structure ChatRequest where
  question : String
  paper_ids : Option (List Nat)
deriving DecidableEq, Repr

/-- From `sendMessage` in the LibraryChat component: the request body is
`{question: currentMessage, paper_ids: selectedPapers.length > 0 ?
selectedPapers : null}`. -/
def mkChatRequest (currentMessage : String) (selectedPapers : List Nat) :
    ChatRequest :=
  { question := currentMessage,
    paper_ids := if selectedPapers.length > 0 then some selectedPapers else none }

/-- One entry of the response's `sources` list. -/
structure SourceItem where
  title : String
  excerpt : String
  relevance_score : ℚ
deriving DecidableEq, Repr

/-- Response body of `/api/library/chat`. -/
structure ChatResponse where
  answer : String
  sources : List SourceItem
  papers_searched : Nat
deriving DecidableEq, Repr

/-- The library: explicit membership list of papers plus the shared index. -/
structure LibraryState where
  papers : List Paper
  index : EmbeddingIndex
deriving DecidableEq, Repr

/-- Title of the library paper with the given id (empty when absent). -/
def titleOf (papers : List Paper) (pid : Nat) : String :=
  match papers.find? (fun p => p.id == pid) with
  | some p => p.title
  | none => ""

/-- Build one `sources` entry from a retrieved passage and its score. -/
def mkSource (papers : List Paper) (r : IndexEntry × ℚ) : SourceItem :=
  { title := titleOf papers r.1.passage.paper_id,
    excerpt := r.1.passage.text,
    relevance_score := r.2 }

/-- Modelled from the spec: the Library query API accepts `{question,
paper_ids: optional list}` and returns `{answer, sources: [{title, excerpt,
relevance_score}], papers_searched}`; it plans retrieval over the requested
scope and grounds the answer through the opaque completion service
`complete`. -/
def libraryChat (complete : String → List String → String)
    (sim : List ℚ → List ℚ → ℚ) (embedQuery : String → QueryVector)
    (cfg : PlannerConfig) (k : Nat) (lib : LibraryState) (req : ChatRequest) :
    Except ConsistencyError ChatResponse :=
  match RetrievalPlanner.plan lib.index sim embedQuery cfg req.question
      req.paper_ids k with
  | .error e => .error e
  | .ok rs =>
    .ok { answer := complete req.question (rs.map fun r => r.1.passage.text),
          sources := rs.map (mkSource lib.papers),
          papers_searched :=
            match req.paper_ids with
            | some sids => sids.length
            | none => lib.papers.length }

/-! ## Citation query API (frontend `queryWithSources` + spec contract) -/

/-- Request body of `/api/citations/query-with-sources/<paper>`. -/
structure CitationRequest where
  question : String
deriving DecidableEq, Repr

/-- From `queryWithSources` in the PaperAnalysis component: the request body is
`{question: queryText}`. -/
def mkCitationRequest (queryText : String) : CitationRequest :=
  { question := queryText }

/-- The `citation` object inside one `relevant_citations` entry: the marker's
literal text and its type. -/
structure CitationLit where
  text : String
  type : String
deriving DecidableEq, Repr

/-- One entry of the response's `relevant_citations` list. -/
structure RelevantCitation where
  citation : CitationLit
  context : String
deriving DecidableEq, Repr

/-- Response body of `/api/citations/query-with-sources/<paper>`. -/
structure CitationResponse where
  answer : String
  relevant_citations : List RelevantCitation
deriving DecidableEq, Repr

/-- Modelled from the spec: the Citation query API accepts `{question}` scoped
to one paper and returns `{answer, relevant_citations: [{citation:{text,type},
context}]}`; it surfaces the Citation objects of the passages used as
grounding context, labeled with the citation's literal text. -/
def citationQuery (complete : String → List String → String)
    (sim : List ℚ → List ℚ → ℚ) (embedQuery : String → QueryVector)
    (cfg : PlannerConfig) (k : Nat) (idx : EmbeddingIndex) (pid : Nat)
    (req : CitationRequest) : Except ConsistencyError CitationResponse :=
  match RetrievalPlanner.plan idx sim embedQuery cfg req.question
      (some [pid]) k with
  | .error e => .error e
  | .ok rs =>
    .ok { answer := complete req.question (rs.map fun r => r.1.passage.text),
          relevant_citations := rs.flatMap fun r =>
            r.1.passage.citations.map fun c =>
              { citation := { text := c.text, type := c.type },
                context := c.context } }

/-! ## Upload handler (frontend `handleFile`) -/

/-- A file as seen by the upload handler: its MIME type string and its size in
bytes. -/
structure UploadFile where
  type : String
  size : Nat
deriving DecidableEq, Repr

/-- Substring containment on character lists, checking `pat.isPrefixOf` at
every suffix: JavaScript's `String.prototype.includes`. -/
def charsContain (pat : List Char) : List Char → Bool
  | [] => pat.isEmpty
  | c :: rest => pat.isPrefixOf (c :: rest) || charsContain pat rest

/-- JavaScript's `s.includes(pat)`. -/
def strIncludes (s pat : String) : Bool :=
  charsContain pat.toList s.toList

/-- What `handleFile` does with a file: reject with an error message, or issue
the POST to `/api/papers/upload`. -/
inductive UploadOutcome where
  | rejected (message : String)
  | requested
deriving DecidableEq, Repr

/-- From `handleFile` in the PaperUpload component: reject non-PDF types, then
files over the 50MB limit, otherwise issue the upload request. -/
def handleFile (f : UploadFile) : UploadOutcome :=
  if !(strIncludes f.type "pdf") then .rejected "Please upload a PDF file"
  else if f.size > 50 * 1024 * 1024 then .rejected "File size must be less than 50MB"
  else .requested

/-! ## Comparison selection (frontend `handlePaperToggle` / `runComparison`) -/

/-- From `handlePaperToggle` in the PaperComparison component: toggling a
selected paper removes it; toggling a new paper appends it only while fewer
than 5 are selected, otherwise the selection is unchanged. -/
def handlePaperToggle (prev : List Nat) (paper : Nat) : List Nat :=
  if prev.any fun p => p == paper then prev.filter fun p => p != paper
  else if prev.length < 5 then prev ++ [paper]
  else prev

/-- What `runComparison` does: nothing, or a POST to `/api/analysis/compare`
with the selected paper ids. -/
inductive ComparisonAction where
  | notIssued
  | requested (paper_ids : List Nat)
deriving DecidableEq, Repr

/-- From `runComparison` in the PaperComparison component: below 2 selected
papers no request is issued; otherwise the comparison request carries the
selected ids. -/
def runComparison (selectedPapers : List Nat) : ComparisonAction :=
  if selectedPapers.length < 2 then .notIssued
  else .requested selectedPapers

/-! ## Demo instances used by the witnesses -/

def demoPassage1 : Passage := ⟨1, 0, 10, "p1a", []⟩
def demoPassage2 : Passage := ⟨2, 0, 10, "p2a", []⟩
def demoPassage3 : Passage := ⟨3, 0, 10, "p3a", []⟩

def demoEntry1 : IndexEntry := ⟨demoPassage1, [1]⟩
def demoEntry2 : IndexEntry := ⟨demoPassage2, [1]⟩
def demoEntry3 : IndexEntry := ⟨demoPassage3, [1]⟩

/-- A library index of 3 papers (one passage each), model version "v1". -/
def demoIdx : EmbeddingIndex := ⟨[demoEntry1, demoEntry2, demoEntry3], "v1", 1⟩

def demoSim : List ℚ → List ℚ → ℚ := fun _ _ => 1

def demoQ : QueryVector := ⟨[0], "v1"⟩

def demoEmbedQ : String → QueryVector := fun _ => demoQ

/-- The ranked results of the demo search scoped to papers 1 and 2. -/
def demoScopedResults : List (IndexEntry × ℚ) :=
  [(demoEntry1, 1), (demoEntry2, 1)]

/-- Passages 0–10 and 5–15 of paper 1 overlap; scored 4/10 and 9/10. -/
def ovPassageLow : Passage := ⟨1, 0, 10, "low", []⟩
def ovPassageHigh : Passage := ⟨1, 5, 15, "high", []⟩
def ovEntryLow : IndexEntry := ⟨ovPassageLow, [1]⟩
def ovEntryHigh : IndexEntry := ⟨ovPassageHigh, [2]⟩
def ovIdx : EmbeddingIndex := ⟨[ovEntryLow, ovEntryHigh], "v1", 1⟩

def qFourTenths : ℚ := Rat.mk' 2 5 (by decide) (by decide)
def qNineTenths : ℚ := Rat.mk' 9 10 (by decide) (by decide)

/-- Similarity giving the low passage 4/10 and the high passage 9/10. -/
def ovSim : List ℚ → List ℚ → ℚ := fun _ v =>
  if v = [2] then qNineTenths else qFourTenths

def qHalf : ℚ := Rat.mk' 1 2 (by decide) (by decide)
def qThreeTenths : ℚ := Rat.mk' 3 10 (by decide) (by decide)

/-- Similarity scoring every passage 3/10. -/
def lowSim : List ℚ → List ℚ → ℚ := fun _ _ => qThreeTenths

/-- Embedding service used by the bulk-add witness: paper 3's embedding call
fails, every other paper embeds to one entry. -/
def demoEmbedPaper : Paper → Option (List IndexEntry) :=
  fun p => if p.id == 3 then none
    else some [⟨⟨p.id, 0, 5, p.title, []⟩, [1]⟩]

def fivePapers : List Paper := [⟨1, "A"⟩, ⟨2, "B"⟩, ⟨3, "C"⟩, ⟨4, "D"⟩, ⟨5, "E"⟩]

def emptyIdx : EmbeddingIndex := ⟨[], "v1", 1⟩

def paper4Entry : IndexEntry := ⟨⟨4, 0, 5, "D", []⟩, [1]⟩

def demoLib : LibraryState :=
  ⟨[⟨1, "Paper One"⟩, ⟨2, "Paper Two"⟩, ⟨3, "Paper Three"⟩], demoIdx⟩

/-- Opaque completion service used by the witnesses. -/
def demoComplete : String → List String → String := fun _ _ => "grounded answer"

def demoChatReq : ChatRequest := mkChatRequest "what?" [1, 2]

def demoChatResp : ChatResponse :=
  { answer := "grounded answer",
    sources := [⟨"Paper One", "p1a", 1⟩, ⟨"Paper Two", "p2a", 1⟩],
    papers_searched := 2 }

/-- An author-year citation occurring in the cited paper's one passage. -/
def demoCitation : Citation :=
  ⟨"(Smith, 2020)", "author-year", "Deep learning (Smith, 2020) improved accuracy.", some 0⟩

def citPassage : Passage := ⟨7, 0, 46, "Deep learning (Smith, 2020) improved accuracy.", [demoCitation]⟩

def citIdx : EmbeddingIndex := ⟨[⟨citPassage, [1]⟩], "v1", 1⟩

def demoCitReq : CitationRequest := mkCitationRequest "what improved accuracy?"

def demoCitResp : CitationResponse :=
  { answer := "grounded answer",
    relevant_citations :=
      [⟨⟨"(Smith, 2020)", "author-year"⟩,
        "Deep learning (Smith, 2020) improved accuracy."⟩] }

/-! ## Helper lemmas -/

/-- Decidable equality on `Except`, for evaluating results in witnesses. -/
instance {ε α : Type _} [DecidableEq ε] [DecidableEq α] :
    DecidableEq (Except ε α) := fun a b =>
  match a, b with
  | .ok x, .ok y =>
    if h : x = y then isTrue (by rw [h]) else isFalse (fun hc => h (Except.ok.inj hc))
  | .error x, .error y =>
    if h : x = y then isTrue (by rw [h]) else isFalse (fun hc => h (Except.error.inj hc))
  | .ok _, .error _ => isFalse fun hc => Except.noConfusion hc
  | .error _, .ok _ => isFalse fun hc => Except.noConfusion hc

theorem search_ok_elim {idx : EmbeddingIndex} {sim : List ℚ → List ℚ → ℚ}
    {q : QueryVector} {scope : Option (List Nat)} {k : Nat}
    {rs : List (IndexEntry × ℚ)} (h : idx.search sim q scope k = .ok rs) :
    q.modelVersion = idx.modelVersion ∧ q.vec.length = idx.dim ∧
      rs = ((scoredEntries idx sim q scope).insertionSort rankBefore).take k := by
  unfold EmbeddingIndex.search at h
  by_cases h1 : q.modelVersion = idx.modelVersion
  · by_cases h2 : q.vec.length = idx.dim
    · rw [if_neg (not_not_intro h1), if_neg (not_not_intro h2)] at h
      exact ⟨h1, h2, (Except.ok.inj h).symm⟩
    · rw [if_neg (not_not_intro h1), if_pos h2] at h
      cases h
  · rw [if_pos h1] at h
    cases h

theorem mem_scoredEntries {idx : EmbeddingIndex} {sim : List ℚ → List ℚ → ℚ}
    {q : QueryVector} {scope : Option (List Nat)} {r : IndexEntry × ℚ}
    (h : r ∈ scoredEntries idx sim q scope) :
    r.1 ∈ idx.entries ∧ scopeFilter scope r.1 = true := by
  unfold scoredEntries at h
  obtain ⟨e, he, rfl⟩ := List.mem_map.mp h
  exact ⟨(List.mem_filter.mp he).1, (List.mem_filter.mp he).2⟩

theorem rankBefore_total (a b : IndexEntry × ℚ) :
    rankBefore a b ∨ rankBefore b a := by
  unfold rankBefore
  rcases lt_trichotomy a.2 b.2 with h | h | h
  · exact Or.inr (Or.inl h)
  · rcases Nat.lt_trichotomy a.1.passage.paper_id b.1.passage.paper_id with
      hp | hp | hp
    · exact Or.inl (Or.inr ⟨h, Or.inl hp⟩)
    · rcases Nat.le_total a.1.passage.start_offset b.1.passage.start_offset with
        hs | hs
      · exact Or.inl (Or.inr ⟨h, Or.inr ⟨hp, hs⟩⟩)
      · exact Or.inr (Or.inr ⟨h.symm, Or.inr ⟨hp.symm, hs⟩⟩)
    · exact Or.inr (Or.inr ⟨h.symm, Or.inl hp⟩)
  · exact Or.inl (Or.inl h)

theorem rankBefore_trans (a b c : IndexEntry × ℚ) (hab : rankBefore a b)
    (hbc : rankBefore b c) : rankBefore a c := by
  unfold rankBefore at hab hbc ⊢
  rcases hab with h1 | ⟨he1, h2⟩ <;> rcases hbc with h3 | ⟨he2, h4⟩
  · exact Or.inl (lt_trans h3 h1)
  · exact Or.inl (he2 ▸ h1)
  · exact Or.inl (he1.symm ▸ h3)
  · refine Or.inr ⟨he1.trans he2, ?_⟩
    rcases h2 with hp1 | ⟨hpe1, hs1⟩ <;> rcases h4 with hp2 | ⟨hpe2, hs2⟩ <;> omega

theorem rankBefore_score_le {a b : IndexEntry × ℚ} (h : rankBefore a b) :
    b.2 ≤ a.2 := by
  unfold rankBefore at h
  rcases h with h | ⟨he, -⟩
  · exact le_of_lt h
  · exact le_of_eq he.symm

theorem search_ok_sorted {idx : EmbeddingIndex} {sim : List ℚ → List ℚ → ℚ}
    {q : QueryVector} {scope : Option (List Nat)} {k : Nat}
    {rs : List (IndexEntry × ℚ)} (h : idx.search sim q scope k = .ok rs) :
    rs.Pairwise fun a b => b.2 ≤ a.2 := by
  obtain ⟨-, -, hrs⟩ := search_ok_elim h
  subst hrs
  haveI : IsTotal (IndexEntry × ℚ) rankBefore := ⟨rankBefore_total⟩
  haveI : IsTrans (IndexEntry × ℚ) rankBefore := ⟨rankBefore_trans⟩
  have hsorted : List.Sorted rankBefore
      ((scoredEntries idx sim q scope).insertionSort rankBefore) :=
    List.sorted_insertionSort rankBefore _
  exact (hsorted.sublist (List.take_sublist _ _)).imp rankBefore_score_le

theorem overlaps_comm (p q : Passage) : overlaps p q = overlaps q p := by
  unfold overlaps
  apply decide_eq_decide.mpr
  constructor
  · rintro ⟨h1, h2, h3⟩
    exact ⟨h1.symm, h3, h2⟩
  · rintro ⟨h1, h2, h3⟩
    exact ⟨h1.symm, h3, h2⟩

theorem mem_dedupKeep_of_mem_acc (rest : List (IndexEntry × ℚ)) :
    ∀ acc y, y ∈ acc → y ∈ dedupKeep acc rest := by
  induction rest with
  | nil =>
    intro acc y hy
    unfold dedupKeep
    exact List.mem_reverse.mpr hy
  | cons x rest ih =>
    intro acc y hy
    unfold dedupKeep
    by_cases hx : acc.any (fun z => overlaps x.1.passage z.1.passage) = true
    · rw [if_pos hx]
      exact ih acc y hy
    · rw [if_neg hx]
      exact ih (x :: acc) y (List.mem_cons_of_mem _ hy)

theorem dedupKeep_drop (rest : List (IndexEntry × ℚ)) :
    ∀ acc, rest.Pairwise (fun a b => b.2 ≤ a.2) →
      (∀ y ∈ acc, ∀ x ∈ rest, x.2 ≤ y.2) →
      ∀ r ∈ rest, r ∉ dedupKeep acc rest →
        ∃ r', r' ∈ dedupKeep acc rest ∧
          overlaps r'.1.passage r.1.passage = true ∧ r.2 ≤ r'.2 := by
  induction rest with
  | nil =>
    intro acc _ _ r hr
    cases hr
  | cons x rest ih =>
    intro acc hsort hacc r hr hnot
    have hst := List.pairwise_cons.mp hsort
    unfold dedupKeep at hnot ⊢
    by_cases hx : acc.any (fun z => overlaps x.1.passage z.1.passage) = true
    · rw [if_pos hx] at hnot ⊢
      rcases List.mem_cons.mp hr with hr | hr
      · subst hr
        obtain ⟨y, hy, hov⟩ := List.any_eq_true.mp hx
        refine ⟨y, mem_dedupKeep_of_mem_acc rest acc y hy, ?_,
          hacc y hy r (List.mem_cons_self _ _)⟩
        rw [overlaps_comm]
        exact hov
      · exact ih acc hst.2
          (fun y hy z hz => hacc y hy z (List.mem_cons_of_mem _ hz)) r hr hnot
    · rw [if_neg hx] at hnot ⊢
      rcases List.mem_cons.mp hr with hr | hr
      · subst hr
        exact absurd
          (mem_dedupKeep_of_mem_acc rest (r :: acc) r (List.mem_cons_self _ _))
          hnot
      · refine ih (x :: acc) hst.2 ?_ r hr hnot
        intro y hy z hz
        rcases List.mem_cons.mp hy with hy | hy
        · subst hy
          exact hst.1 z hz
        · exact hacc y hy z (List.mem_cons_of_mem _ hz)

/-! ## Claim theorems -/

/-- Claim C1: every search over the embedding index with an explicit scope
returns only entries whose paper belongs to that scope, so a query over a
3-paper library scoped to 2 papers never returns a passage of the third. -/
theorem search_scoped_isolation (idx : EmbeddingIndex)
    (sim : List ℚ → List ℚ → ℚ) (q : QueryVector) (sids : List Nat) (k : Nat)
    (rs : List (IndexEntry × ℚ))
    (h : idx.search sim q (some sids) k = .ok rs) :
    ∀ r ∈ rs, r.1.passage.paper_id ∈ sids := by
  obtain ⟨-, -, hrs⟩ := search_ok_elim h
  subst hrs
  intro r hr
  have h1 : r ∈ (scoredEntries idx sim q (some sids)).insertionSort rankBefore :=
    List.take_subset _ _ hr
  have h2 : r ∈ scoredEntries idx sim q (some sids) :=
    (List.mem_insertionSort _).mp h1
  have h3 := (mem_scoredEntries h2).2
  unfold scopeFilter at h3
  exact of_decide_eq_true h3

/-- Witness for C1: in the 3-paper demo library, the search scoped to papers
1 and 2 returns exactly the passages of papers 1 and 2, each belonging to the
scope — in particular no passage of paper 3 appears. -/
theorem search_scoped_isolation_witness :
    demoIdx.search demoSim demoQ (some [1, 2]) 5 = .ok demoScopedResults ∧
    (demoEntry1, (1 : ℚ)).1.passage.paper_id ∈ [1, 2] ∧
    (demoEntry2, (1 : ℚ)).1.passage.paper_id ∈ [1, 2] :=
  ⟨rfl,
   search_scoped_isolation demoIdx demoSim demoQ [1, 2] 5 demoScopedResults rfl
     (demoEntry1, 1) (by decide),
   search_scoped_isolation demoIdx demoSim demoQ [1, 2] 5 demoScopedResults rfl
     (demoEntry2, 1) (by decide)⟩

/-- Claim C5: a search whose query vector carries a different embedding-model
version than the index fails with `ConsistencyError.versionMismatch`; a
query vector of the wrong dimension fails with
`ConsistencyError.dimensionMismatch` (the spec's `DimensionMismatchError`);
in neither case is a normal result produced. -/
theorem search_version_guard (idx : EmbeddingIndex)
    (sim : List ℚ → List ℚ → ℚ) (q : QueryVector) (scope : Option (List Nat))
    (k : Nat) :
    (q.modelVersion ≠ idx.modelVersion →
      idx.search sim q scope k = .error .versionMismatch) ∧
    (q.modelVersion = idx.modelVersion → q.vec.length ≠ idx.dim →
      idx.search sim q scope k = .error .dimensionMismatch) ∧
    ((q.modelVersion ≠ idx.modelVersion ∨ q.vec.length ≠ idx.dim) →
      ∀ rs, idx.search sim q scope k ≠ .ok rs) := by
  refine ⟨fun h1 => ?_, fun h1 h2 => ?_, fun h rs hok => ?_⟩
  · unfold EmbeddingIndex.search
    rw [if_pos h1]
  · unfold EmbeddingIndex.search
    rw [if_neg (not_not_intro h1), if_pos h2]
  · obtain ⟨hv, hd, -⟩ := search_ok_elim hok
    rcases h with h | h
    · exact h hv
    · exact h hd

/-- Witness for C5: querying the "v1" demo index with a "v2" query vector
yields `versionMismatch`; querying it with a 2-dimensional vector (the index
stores 1-dimensional vectors) yields `dimensionMismatch`. -/
theorem search_version_guard_witness :
    demoIdx.search demoSim ⟨[0], "v2"⟩ none 5 = .error .versionMismatch ∧
    demoIdx.search demoSim ⟨[0, 0], "v1"⟩ none 5 = .error .dimensionMismatch :=
  ⟨(search_version_guard demoIdx demoSim ⟨[0], "v2"⟩ none 5).1 (by decide),
   (search_version_guard demoIdx demoSim ⟨[0, 0], "v1"⟩ none 5).2.1 (by decide)
     (by decide)⟩

theorem dedupKeep_pairwise (rest : List (IndexEntry × ℚ)) :
    ∀ acc, acc.Pairwise NoOverlapPair →
      (dedupKeep acc rest).Pairwise NoOverlapPair := by
  induction rest with
  | nil =>
    intro acc hacc
    unfold dedupKeep
    rw [List.pairwise_reverse]
    exact hacc.imp fun h => by
      unfold NoOverlapPair at *
      rw [overlaps_comm]
      exact h
  | cons x rest ih =>
    intro acc hacc
    unfold dedupKeep
    by_cases hx : acc.any (fun y => overlaps x.1.passage y.1.passage) = true
    · rw [if_pos hx]
      exact ih acc hacc
    · rw [if_neg hx]
      refine ih (x :: acc) (List.pairwise_cons.mpr ⟨?_, hacc⟩)
      intro y hy
      have hall := List.any_eq_false.mp (eq_false_of_ne_true hx)
      exact eq_false_of_ne_true (hall y hy)

theorem mem_dedupKeep (rest : List (IndexEntry × ℚ)) :
    ∀ acc x, x ∈ dedupKeep acc rest → x ∈ acc ∨ x ∈ rest := by
  induction rest with
  | nil =>
    intro acc x hx
    unfold dedupKeep at hx
    exact Or.inl (List.mem_reverse.mp hx)
  | cons y rest ih =>
    intro acc x hx
    unfold dedupKeep at hx
    by_cases hy : acc.any (fun z => overlaps y.1.passage z.1.passage) = true
    · rw [if_pos hy] at hx
      rcases ih acc x hx with h | h
      · exact Or.inl h
      · exact Or.inr (List.mem_cons_of_mem _ h)
    · rw [if_neg hy] at hx
      rcases ih (y :: acc) x hx with h | h
      · rcases List.mem_cons.mp h with h | h
        · exact Or.inr (h ▸ List.mem_cons_self _ _)
        · exact Or.inl h
      · exact Or.inr (List.mem_cons_of_mem _ h)

/-- Claim C2: the planner's result never contains two passages of the same
paper with overlapping offset ranges — and of any overlapping same-paper
candidates returned by the index search (an artifact of chunk-window overlap)
only the highest-scoring one is kept: every candidate dropped by
deduplication overlaps a kept candidate that scores at least as high. -/
theorem plan_no_overlap (idx : EmbeddingIndex) (sim : List ℚ → List ℚ → ℚ)
    (embedQuery : String → QueryVector) (cfg : PlannerConfig) (query : String)
    (scope : Option (List Nat)) (k : Nat) :
    (∀ l, RetrievalPlanner.plan idx sim embedQuery cfg query scope k = .ok l →
      l.Pairwise NoOverlapPair) ∧
    (∀ rs, idx.search sim (embedQuery query) scope k = .ok rs →
      ∀ r ∈ rs, r ∉ dedupOverlaps rs →
        ∃ r', r' ∈ dedupOverlaps rs ∧
          overlaps r'.1.passage r.1.passage = true ∧ r.2 ≤ r'.2) := by
  constructor
  · intro l h
    unfold RetrievalPlanner.plan at h
    cases hs : idx.search sim (embedQuery query) scope k with
    | error e =>
      rw [hs] at h
      cases h
    | ok rs =>
      rw [hs] at h
      have hl := Except.ok.inj h
      subst hl
      exact List.Pairwise.filter _ (dedupKeep_pairwise rs [] List.Pairwise.nil)
  · intro rs hs r hr hnot
    exact dedupKeep_drop rs [] (search_ok_sorted hs) (by intro y hy; cases hy)
      r hr hnot

/-- Witness for C2: planning over two overlapping same-paper passages (scored
9/10 and 4/10) yields a pairwise non-overlapping result, and the dropped
4/10 candidate overlaps a kept candidate scoring at least 4/10. -/
theorem plan_no_overlap_witness :
    List.Pairwise NoOverlapPair [(ovEntryHigh, qNineTenths)] ∧
    ∃ r', r' ∈ dedupOverlaps [(ovEntryHigh, qNineTenths),
        (ovEntryLow, qFourTenths)] ∧
      overlaps r'.1.passage (ovEntryLow, qFourTenths).1.passage = true ∧
      (ovEntryLow, qFourTenths).2 ≤ r'.2 :=
  ⟨(plan_no_overlap ovIdx ovSim demoEmbedQ ⟨0⟩ "q" none 5).1
      [(ovEntryHigh, qNineTenths)] rfl,
   (plan_no_overlap ovIdx ovSim demoEmbedQ ⟨0⟩ "q" none 5).2
      [(ovEntryHigh, qNineTenths), (ovEntryLow, qFourTenths)] rfl
      (ovEntryLow, qFourTenths) (by decide) (by decide)⟩

/-- Claim C3: every passage the planner returns scores at or above the
configured minimum-relevance floor, and when every candidate scores below the
floor the planner returns the empty sequence as a valid (`.ok`) result rather
than an error or the best-available match. -/
theorem plan_relevance_floor (idx : EmbeddingIndex)
    (sim : List ℚ → List ℚ → ℚ) (embedQuery : String → QueryVector)
    (cfg : PlannerConfig) (query : String) (scope : Option (List Nat))
    (k : Nat) :
    (∀ l, RetrievalPlanner.plan idx sim embedQuery cfg query scope k = .ok l →
      ∀ r ∈ l, cfg.minRelevance ≤ r.2) ∧
    (∀ rs, idx.search sim (embedQuery query) scope k = .ok rs →
      (∀ r ∈ rs, r.2 < cfg.minRelevance) →
      RetrievalPlanner.plan idx sim embedQuery cfg query scope k = .ok []) := by
  constructor
  · intro l h r hr
    unfold RetrievalPlanner.plan at h
    cases hs : idx.search sim (embedQuery query) scope k with
    | error e =>
      rw [hs] at h
      cases h
    | ok rs =>
      rw [hs] at h
      have hl := Except.ok.inj h
      subst hl
      exact of_decide_eq_true (List.mem_filter.mp hr).2
  · intro rs hs hbelow
    unfold RetrievalPlanner.plan
    rw [hs]
    show Except.ok ((dedupOverlaps rs).filter fun r =>
      decide (cfg.minRelevance ≤ r.2)) = Except.ok []
    congr 1
    rw [List.filter_eq_nil_iff]
    intro r hr
    have hmem : r ∈ rs := by
      rcases mem_dedupKeep rs [] r hr with h | h
      · cases h
      · exact h
    simpa using not_le_of_lt (hbelow r hmem)

/-- Witness for C3: with the floor at 1/2 over a corpus whose best match
scores 3/10, `plan` returns the empty sequence as a valid result. -/
theorem plan_relevance_floor_witness :
    RetrievalPlanner.plan demoIdx lowSim demoEmbedQ ⟨qHalf⟩ "q" none 5 =
      .ok [] :=
  (plan_relevance_floor demoIdx lowSim demoEmbedQ ⟨qHalf⟩ "q" none 5).2
    [(demoEntry1, qThreeTenths), (demoEntry2, qThreeTenths),
      (demoEntry3, qThreeTenths)] rfl (by decide)

/-- Claim C4: the Chunker is deterministic — `chunk` is a pure function of
the input text, so two runs on the same text yield identical passage
sequences and in particular identical offset lists. -/
theorem chunk_deterministic (pid : Nat) (T : String) :
    chunk pid T = chunk pid T ∧ chunkOffsets pid T = chunkOffsets pid T :=
  ⟨rfl, rfl⟩

theorem bulkAdd_entries_mono (f : Paper → Option (List IndexEntry)) :
    ∀ (papers : List Paper) (idx : EmbeddingIndex) (e : IndexEntry),
      e ∈ idx.entries → e ∈ (bulkAdd f idx papers).index.entries := by
  intro papers
  induction papers with
  | nil =>
    intro idx e he
    exact he
  | cons p rest ih =>
    intro idx e he
    unfold bulkAdd
    cases hfp : f p with
    | none => exact ih idx e he
    | some es =>
      exact ih (idx.insertEntries es) e (List.mem_append_left _ he)

theorem bulkAdd_preserves_meta (f : Paper → Option (List IndexEntry)) :
    ∀ (papers : List Paper) (idx : EmbeddingIndex),
      (bulkAdd f idx papers).index.modelVersion = idx.modelVersion ∧
      (bulkAdd f idx papers).index.dim = idx.dim := by
  intro papers
  induction papers with
  | nil =>
    intro idx
    exact ⟨rfl, rfl⟩
  | cons p rest ih =>
    intro idx
    unfold bulkAdd
    cases hfp : f p with
    | none => exact ih idx
    | some es => exact ih (idx.insertEntries es)

theorem bulkAdd_reports (f : Paper → Option (List IndexEntry)) :
    ∀ (papers : List Paper) (idx : EmbeddingIndex),
      (bulkAdd f idx papers).added_papers
          = (papers.filter fun p => (f p).isSome).map Paper.id ∧
      (bulkAdd f idx papers).failed_papers
          = (papers.filter fun p => (f p).isNone).map Paper.id := by
  intro papers
  induction papers with
  | nil =>
    intro idx
    exact ⟨rfl, rfl⟩
  | cons p rest ih =>
    intro idx
    unfold bulkAdd
    cases hfp : f p with
    | none =>
      have h := ih idx
      constructor
      · show (bulkAdd f idx rest).added_papers = _
        rw [h.1, List.filter_cons]
        simp [hfp]
      · show p.id :: (bulkAdd f idx rest).failed_papers = _
        rw [h.2, List.filter_cons]
        simp [hfp]
    | some es =>
      have h := ih (idx.insertEntries es)
      constructor
      · show p.id :: (bulkAdd f (idx.insertEntries es) rest).added_papers = _
        rw [h.1, List.filter_cons]
        simp [hfp]
      · show (bulkAdd f (idx.insertEntries es) rest).failed_papers = _
        rw [h.2, List.filter_cons]
        simp [hfp]

theorem bulkAdd_added_entries (f : Paper → Option (List IndexEntry)) :
    ∀ (papers : List Paper) (idx : EmbeddingIndex),
      ∀ p ∈ papers, ∀ es, f p = some es →
        ∀ e ∈ es, e ∈ (bulkAdd f idx papers).index.entries := by
  intro papers
  induction papers with
  | nil =>
    intro idx p hp
    cases hp
  | cons q rest ih =>
    intro idx p hp es hes e he
    rcases List.mem_cons.mp hp with hp | hp
    · subst hp
      unfold bulkAdd
      rw [hes]
      exact bulkAdd_entries_mono f rest (idx.insertEntries es) e
        (List.mem_append_right _ he)
    · unfold bulkAdd
      cases hfq : f q with
      | none => exact ih idx p hp es hes e he
      | some qs => exact ih (idx.insertEntries qs) p hp es hes e he

theorem search_complete (idx : EmbeddingIndex) (sim : List ℚ → List ℚ → ℚ)
    (q : QueryVector) (sids : List Nat) (k : Nat) (e : IndexEntry)
    (hv : q.modelVersion = idx.modelVersion) (hd : q.vec.length = idx.dim)
    (he : e ∈ idx.entries) (hs : e.passage.paper_id ∈ sids)
    (hk : idx.entries.length ≤ k) :
    ∃ rs, idx.search sim q (some sids) k = .ok rs ∧
      (e, sim q.vec e.vector) ∈ rs := by
  refine ⟨((scoredEntries idx sim q (some sids)).insertionSort rankBefore).take k,
    ?_, ?_⟩
  · unfold EmbeddingIndex.search
    rw [if_neg (not_not_intro hv), if_neg (not_not_intro hd)]
  · have hlen :
        ((scoredEntries idx sim q (some sids)).insertionSort rankBefore).length
          ≤ k := by
      have h1 := (List.perm_insertionSort rankBefore
        (scoredEntries idx sim q (some sids))).length_eq
      have h2 : (scoredEntries idx sim q (some sids)).length ≤ idx.entries.length := by
        unfold scoredEntries
        rw [List.length_map]
        exact List.length_filter_le _ _
      omega
    rw [List.take_of_length_le hlen, List.mem_insertionSort]
    unfold scoredEntries
    refine List.mem_map.mpr ⟨e, List.mem_filter.mpr ⟨he, ?_⟩, rfl⟩
    unfold scopeFilter
    exact decide_eq_true hs

/-- Claim C6: a bulk add-to-library request is a sequence of independent
per-paper inserts with a per-paper report — the successes are exactly the
papers whose embedding call succeeds, the failures are named, one paper's
failure leaves the other papers' inserts intact, and every successfully added
paper's entries are searchable in the resulting index. -/
theorem bulkAdd_per_paper (f : Paper → Option (List IndexEntry))
    (idx : EmbeddingIndex) (papers : List Paper) :
    (bulkAdd f idx papers).added_papers
        = (papers.filter fun p => (f p).isSome).map Paper.id ∧
    (bulkAdd f idx papers).failed_papers
        = (papers.filter fun p => (f p).isNone).map Paper.id ∧
    (∀ e ∈ idx.entries, e ∈ (bulkAdd f idx papers).index.entries) ∧
    (∀ p ∈ papers, ∀ es, f p = some es →
      ∀ e ∈ es, e ∈ (bulkAdd f idx papers).index.entries) ∧
    (∀ p ∈ papers, ∀ es, f p = some es → ∀ e ∈ es,
      ∀ (sim : List ℚ → List ℚ → ℚ) (q : QueryVector) (sids : List Nat)
        (k : Nat),
        q.modelVersion = idx.modelVersion → q.vec.length = idx.dim →
        e.passage.paper_id ∈ sids →
        (bulkAdd f idx papers).index.entries.length ≤ k →
        ∃ rs, (bulkAdd f idx papers).index.search sim q (some sids) k = .ok rs ∧
          (e, sim q.vec e.vector) ∈ rs) := by
  refine ⟨(bulkAdd_reports f papers idx).1, (bulkAdd_reports f papers idx).2,
    fun e he => bulkAdd_entries_mono f papers idx e he,
    fun p hp es hes e he => bulkAdd_added_entries f papers idx p hp es hes e he,
    fun p hp es hes e he sim q sids k hv hd hsid hk => ?_⟩
  have hmeta := bulkAdd_preserves_meta f papers idx
  exact search_complete _ sim q sids k e (hv.trans hmeta.1.symm)
    (hd.trans hmeta.2.symm)
    (bulkAdd_added_entries f papers idx p hp es hes e he) hsid hk

/-- Witness for C6: bulk-adding 5 papers where paper 3's embedding call fails
reports successes [1, 2, 4, 5] and the named failure [3], and one of the
added papers (paper 4) is searchable in the resulting index. -/
theorem bulkAdd_per_paper_witness :
    (bulkAdd demoEmbedPaper emptyIdx fivePapers).added_papers = [1, 2, 4, 5] ∧
    (bulkAdd demoEmbedPaper emptyIdx fivePapers).failed_papers = [3] ∧
    ∃ rs, (bulkAdd demoEmbedPaper emptyIdx fivePapers).index.search demoSim
        demoQ (some [4]) 9 = .ok rs ∧
      (paper4Entry, demoSim demoQ.vec paper4Entry.vector) ∈ rs := by
  have h := bulkAdd_per_paper demoEmbedPaper emptyIdx fivePapers
  refine ⟨by rw [h.1]; rfl, by rw [h.2.1]; rfl, ?_⟩
  exact h.2.2.2.2 ⟨4, "D"⟩ (by decide) [paper4Entry] rfl paper4Entry
    (List.mem_singleton.mpr rfl) demoSim demoQ [4] 9 rfl rfl
    (by decide) (by decide)

/-- Claim C7: a library chat request carries `{question, paper_ids: optional
list}` (null when no papers are selected), and a successful response carries
the grounded answer, the `papers_searched` value for the requested scope, and
a `sources` list each of whose entries exposes the source paper's title, an
excerpt, and its relevance score, all derived from the planner's retrieved
passages. -/
theorem libraryChat_contract :
    (∀ msg sel, (mkChatRequest msg sel).question = msg ∧
      (mkChatRequest msg sel).paper_ids =
        if sel.length > 0 then some sel else none) ∧
    (∀ (complete : String → List String → String)
        (sim : List ℚ → List ℚ → ℚ) (embedQuery : String → QueryVector)
        (cfg : PlannerConfig) (k : Nat) (lib : LibraryState)
        (req : ChatRequest) (resp : ChatResponse),
      libraryChat complete sim embedQuery cfg k lib req = .ok resp →
      ∃ rs, RetrievalPlanner.plan lib.index sim embedQuery cfg req.question
          req.paper_ids k = .ok rs ∧
        resp.answer = complete req.question (rs.map fun r => r.1.passage.text) ∧
        resp.sources = rs.map (mkSource lib.papers) ∧
        (∀ s ∈ resp.sources, ∃ r ∈ rs,
          s.title = titleOf lib.papers r.1.passage.paper_id ∧
          s.excerpt = r.1.passage.text ∧ s.relevance_score = r.2) ∧
        resp.papers_searched =
          (match req.paper_ids with
           | some sids => sids.length
           | none => lib.papers.length)) := by
  constructor
  · intro msg sel
    exact ⟨rfl, rfl⟩
  · intro complete sim embedQuery cfg k lib req resp h
    unfold libraryChat at h
    cases hs : RetrievalPlanner.plan lib.index sim embedQuery cfg req.question
        req.paper_ids k with
    | error e =>
      rw [hs] at h
      cases h
    | ok rs =>
      rw [hs] at h
      have hr := Except.ok.inj h
      subst hr
      refine ⟨rs, rfl, rfl, rfl, ?_, rfl⟩
      intro s hsrc
      obtain ⟨r, hrmem, hr⟩ := List.mem_map.mp hsrc
      exact ⟨r, hrmem, by rw [← hr]; exact ⟨rfl, rfl, rfl⟩⟩

/-- Witness for C7: a successful chat over the demo library scoped to papers
1 and 2 yields a response whose sources carry title, excerpt and relevance
score of the retrieved passages and whose `papers_searched` is 2. -/
theorem libraryChat_contract_witness :
    ∃ rs, RetrievalPlanner.plan demoLib.index demoSim demoEmbedQ ⟨0⟩
        demoChatReq.question demoChatReq.paper_ids 5 = .ok rs ∧
      demoChatResp.answer =
        demoComplete demoChatReq.question (rs.map fun r => r.1.passage.text) ∧
      demoChatResp.sources = rs.map (mkSource demoLib.papers) ∧
      (∀ s ∈ demoChatResp.sources, ∃ r ∈ rs,
        s.title = titleOf demoLib.papers r.1.passage.paper_id ∧
        s.excerpt = r.1.passage.text ∧ s.relevance_score = r.2) ∧
      demoChatResp.papers_searched =
        (match demoChatReq.paper_ids with
         | some sids => sids.length
         | none => demoLib.papers.length) :=
  libraryChat_contract.2 demoComplete demoSim demoEmbedQ ⟨0⟩ 5 demoLib
    demoChatReq demoChatResp rfl

/-- Claim C8: a citation query scoped to one paper carries `{question}`, and a
successful response carries an answer plus a `relevant_citations` list whose
entries each expose the citation's literal text and type together with its
context string, taken from the citations of the retrieved passages. -/
theorem citationQuery_contract :
    (∀ queryText, (mkCitationRequest queryText).question = queryText) ∧
    (∀ (complete : String → List String → String)
        (sim : List ℚ → List ℚ → ℚ) (embedQuery : String → QueryVector)
        (cfg : PlannerConfig) (k : Nat) (idx : EmbeddingIndex) (pid : Nat)
        (req : CitationRequest) (resp : CitationResponse),
      citationQuery complete sim embedQuery cfg k idx pid req = .ok resp →
      ∃ rs, RetrievalPlanner.plan idx sim embedQuery cfg req.question
          (some [pid]) k = .ok rs ∧
        resp.answer = complete req.question (rs.map fun r => r.1.passage.text) ∧
        resp.relevant_citations = (rs.flatMap fun r =>
          r.1.passage.citations.map fun c =>
            { citation := { text := c.text, type := c.type },
              context := c.context }) ∧
        (∀ rc ∈ resp.relevant_citations, ∃ r ∈ rs, ∃ c ∈ r.1.passage.citations,
          rc.citation.text = c.text ∧ rc.citation.type = c.type ∧
          rc.context = c.context)) := by
  constructor
  · intro queryText
    exact rfl
  · intro complete sim embedQuery cfg k idx pid req resp h
    unfold citationQuery at h
    cases hs : RetrievalPlanner.plan idx sim embedQuery cfg req.question
        (some [pid]) k with
    | error e =>
      rw [hs] at h
      cases h
    | ok rs =>
      rw [hs] at h
      have hr := Except.ok.inj h
      subst hr
      refine ⟨rs, rfl, rfl, rfl, ?_⟩
      intro rc hrc
      obtain ⟨r, hrmem, hmem⟩ := List.mem_flatMap.mp hrc
      obtain ⟨c, hcmem, hc⟩ := List.mem_map.mp hmem
      exact ⟨r, hrmem, c, hcmem, by rw [← hc]; exact ⟨rfl, rfl, rfl⟩⟩

/-- Witness for C8: a successful citation query over the one-passage demo
paper returns the answer together with the passage's citation, exposing its
literal text, its type and its context. -/
theorem citationQuery_contract_witness :
    ∃ rs, RetrievalPlanner.plan citIdx demoSim demoEmbedQ ⟨0⟩
        demoCitReq.question (some [7]) 5 = .ok rs ∧
      demoCitResp.answer =
        demoComplete demoCitReq.question (rs.map fun r => r.1.passage.text) ∧
      demoCitResp.relevant_citations = (rs.flatMap fun r =>
        r.1.passage.citations.map fun c =>
          { citation := { text := c.text, type := c.type },
            context := c.context }) ∧
      (∀ rc ∈ demoCitResp.relevant_citations, ∃ r ∈ rs,
        ∃ c ∈ r.1.passage.citations,
        rc.citation.text = c.text ∧ rc.citation.type = c.type ∧
        rc.context = c.context) :=
  citationQuery_contract.2 demoComplete demoSim demoEmbedQ ⟨0⟩ 5 citIdx 7
    demoCitReq demoCitResp rfl

/-- Claim C9: the upload handler rejects (with an error message, issuing no
upload request) every file whose type does not include "pdf" and every file
over 50MB; the POST to `/api/papers/upload` is issued exactly for PDF files
within the limit. -/
theorem handleFile_guard (f : UploadFile) :
    (strIncludes f.type "pdf" = false → handleFile f = .rejected "Please upload a PDF file") ∧
    (strIncludes f.type "pdf" = true → f.size > 50 * 1024 * 1024 →
      handleFile f = .rejected "File size must be less than 50MB") ∧
    ((strIncludes f.type "pdf" = false ∨ f.size > 50 * 1024 * 1024) →
      handleFile f ≠ .requested ∧ ∃ msg, handleFile f = .rejected msg) ∧
    (handleFile f = .requested ↔
      strIncludes f.type "pdf" = true ∧ f.size ≤ 50 * 1024 * 1024) := by
  by_cases hp : strIncludes f.type "pdf" = true
  · by_cases hsz : f.size > 50 * 1024 * 1024
    · have hval : handleFile f = .rejected "File size must be less than 50MB" := by
        unfold handleFile
        rw [hp, if_neg (by simp), if_pos hsz]
      refine ⟨?_, fun _ _ => hval, fun _ => ?_, ?_⟩
      · intro hc
        rw [hp] at hc
        cases hc
      · exact ⟨(by rw [hval]; intro hc; cases hc), _, hval⟩
      · rw [hval]
        constructor
        · intro hc
          cases hc
        · rintro ⟨-, hle⟩
          omega
    · have hval : handleFile f = .requested := by
        unfold handleFile
        rw [hp, if_neg (by simp), if_neg hsz]
      refine ⟨?_, fun _ h => absurd h hsz, ?_, ?_⟩
      · intro hc
        rw [hp] at hc
        cases hc
      · intro h
        rcases h with h | h
        · rw [hp] at h
          cases h
        · exact absurd h hsz
      · rw [hval]
        exact ⟨fun _ => ⟨hp, by omega⟩, fun _ => rfl⟩
  · have hp' : strIncludes f.type "pdf" = false := eq_false_of_ne_true hp
    have hval : handleFile f = .rejected "Please upload a PDF file" := by
      unfold handleFile
      rw [hp', if_pos (by simp)]
    refine ⟨fun _ => hval, ?_, fun _ => ?_, ?_⟩
    · intro hc
      rw [hp'] at hc
      cases hc
    · exact ⟨(by rw [hval]; intro hc; cases hc), _, hval⟩
    · rw [hval]
      constructor
      · intro hc
        cases hc
      · rintro ⟨hc, -⟩
        rw [hp'] at hc
        cases hc

/-- Witness for C9: a 100-byte plain-text file is rejected with the PDF
message, a 60MB PDF is rejected with the size message, and a 100-byte PDF
issues the upload request. -/
theorem handleFile_guard_witness :
    handleFile ⟨"text/plain", 100⟩ = .rejected "Please upload a PDF file" ∧
    handleFile ⟨"application/pdf", 60 * 1024 * 1024⟩ =
      .rejected "File size must be less than 50MB" ∧
    handleFile ⟨"application/pdf", 100⟩ = .requested :=
  ⟨(handleFile_guard ⟨"text/plain", 100⟩).1 (by decide),
   (handleFile_guard ⟨"application/pdf", 60 * 1024 * 1024⟩).2.1 (by decide)
     (by decide),
   (handleFile_guard ⟨"application/pdf", 100⟩).2.2.2.mpr ⟨by decide, by decide⟩⟩

theorem handlePaperToggle_preserves (prev : List Nat) (paper : Nat)
    (h : prev.length ≤ 5 ∧ prev.Nodup) :
    (handlePaperToggle prev paper).length ≤ 5 ∧
      (handlePaperToggle prev paper).Nodup := by
  obtain ⟨hlen, hnd⟩ := h
  unfold handlePaperToggle
  by_cases hmem : prev.any (fun p => p == paper) = true
  · rw [if_pos hmem]
    exact ⟨le_trans (List.length_filter_le _ _) hlen, hnd.filter _⟩
  · rw [if_neg hmem]
    by_cases hfull : prev.length < 5
    · rw [if_pos hfull]
      constructor
      · rw [List.length_append, List.length_singleton]
        omega
      · rw [List.nodup_append]
        refine ⟨hnd, List.nodup_singleton _, ?_⟩
        intro a ha hb
        rw [List.mem_singleton] at hb
        subst hb
        have := List.any_eq_false.mp (eq_false_of_ne_true hmem) a ha
        simp at this
    · rw [if_neg hfull]
      exact ⟨hlen, hnd⟩

theorem foldl_toggle_invariant (ops : List Nat) :
    ∀ start : List Nat, start.length ≤ 5 → start.Nodup →
      (ops.foldl handlePaperToggle start).length ≤ 5 ∧
        (ops.foldl handlePaperToggle start).Nodup := by
  induction ops with
  | nil =>
    intro start hlen hnd
    exact ⟨hlen, hnd⟩
  | cons op rest ih =>
    intro start hlen hnd
    have h := handlePaperToggle_preserves start op ⟨hlen, hnd⟩
    exact ih (handlePaperToggle start op) h.1 h.2

/-- Claim C10: starting from the empty selection, any sequence of paper
toggles keeps the comparison selection at no more than 5 papers with no
duplicate ids; toggling a selected paper removes it, toggling a new paper
with 5 already selected leaves the selection unchanged; and `runComparison`
issues the comparison request exactly when at least 2 papers are selected,
with the selected ids. -/
theorem paperToggle_invariant :
    (∀ ops : List Nat, (ops.foldl handlePaperToggle []).length ≤ 5 ∧
      (ops.foldl handlePaperToggle []).Nodup) ∧
    (∀ prev paper, paper ∈ prev → paper ∉ handlePaperToggle prev paper) ∧
    (∀ prev paper, paper ∉ prev → prev.length = 5 →
      handlePaperToggle prev paper = prev) ∧
    (∀ sel ids, runComparison sel = .requested ids →
      2 ≤ ids.length ∧ ids = sel) ∧
    (∀ sel, sel.length < 2 → runComparison sel = .notIssued) := by
  refine ⟨fun ops => foldl_toggle_invariant ops [] (by simp) List.nodup_nil,
    ?_, ?_, ?_, ?_⟩
  · intro prev paper hmem
    unfold handlePaperToggle
    rw [if_pos (List.any_eq_true.mpr ⟨paper, hmem, by simp⟩)]
    intro hc
    have := (List.mem_filter.mp hc).2
    simp at this
  · intro prev paper hmem hfull
    unfold handlePaperToggle
    rw [if_neg ?hnot, if_neg (by omega)]
    case hnot =>
      intro hc
      obtain ⟨x, hx, hbeq⟩ := List.any_eq_true.mp hc
      rw [beq_iff_eq] at hbeq
      exact hmem (hbeq ▸ hx)
  · intro sel ids h
    unfold runComparison at h
    by_cases hlt : sel.length < 2
    · rw [if_pos hlt] at h
      cases h
    · rw [if_neg hlt] at h
      have := ComparisonAction.requested.inj h
      subst this
      exact ⟨by omega, rfl⟩
  · intro sel hlt
    unfold runComparison
    rw [if_pos hlt]

/-- Witness for C10: after toggling papers 1–5, then 6 (blocked by the
5-paper cap), then 3 (deselected), the selection is [1, 2, 4, 5]: within the
cap, duplicate-free; `runComparison` on a single selected paper issues no
request, and on [1, 2] issues the request with those ids. -/
theorem paperToggle_invariant_witness :
    (([1, 2, 3, 4, 5, 6, 3].foldl handlePaperToggle []).length ≤ 5 ∧
      ([1, 2, 3, 4, 5, 6, 3].foldl handlePaperToggle []).Nodup) ∧
    (6 : Nat) ∉ handlePaperToggle [1, 2, 3, 4, 5] 6 ∧
    handlePaperToggle [1, 2, 3, 4, 5] 6 = [1, 2, 3, 4, 5] ∧
    runComparison [1] = .notIssued ∧
    (2 ≤ [1, 2].length ∧ [1, 2] = [1, 2]) :=
  ⟨paperToggle_invariant.1 [1, 2, 3, 4, 5, 6, 3],
   by
     rw [paperToggle_invariant.2.2.1 [1, 2, 3, 4, 5] 6 (by decide) (by decide)]
     decide,
   paperToggle_invariant.2.2.1 [1, 2, 3, 4, 5] 6 (by decide) (by decide),
   paperToggle_invariant.2.2.2.2 [1] (by decide),
   paperToggle_invariant.2.2.2.1 [1, 2] [1, 2] (by decide)⟩

end AIResearchAgent
